/-
  Verification of the preview-server request router of src/src/lib/run.js.

  JavaScript strings are embedded as lists of characters (Str). Each model
  definition carries a comment pointing at the lines of run.js it embeds.
  Helpers of the utils library (Url.join, Url.extname, mime lookup) are not
  part of src/ and are modelled from the spec where noted.
-/
import Mathlib

/-- A JavaScript string, embedded as a list of characters. -/
abbrev Str := List Char

/-- JS s.includes(pat): pat occurs somewhere inside s. -/
def containsSub (s pat : Str) : Bool := decide (pat <:+: s)

/-- JS s.startsWith(pat). -/
def isPre (pat s : Str) : Bool := decide (pat <+: s)

/-- JS s.endsWith(pat). -/
def endsWith (s pat : Str) : Bool := decide (pat <:+ s)

/-- JS s.replace(/\/+$/, ""): strip all trailing slashes (run.js:285, 683, 738). -/
def rtrimSlash (s : Str) : Str := (s.reverse.dropWhile (fun c => c = '/')).reverse

/-- JS s.replace(/^\/+/, ""): strip all leading slashes (run.js:286, 691, 744). -/
def ltrimSlash (s : Str) : Str := s.dropWhile (fun c => c = '/')

/-- JS String.prototype.split with a multi-character separator, as used by
text.split("&lt;head&gt;") (run.js:479) and temp.split("::") (run.js:677, 708). -/
def splitOnSub (sep : Str) : Str → List Str
  | [] => [[]]
  | c :: rest =>
    if h : sep ≠ [] ∧ sep.isPrefixOf (c :: rest) then
      [] :: splitOnSub sep ((c :: rest).drop sep.length)
    else
      match splitOnSub sep rest with
      | [] => [[c]]
      | x :: xs => (c :: x) :: xs
termination_by s => s.length
decreasing_by
  · have hs : 0 < sep.length := List.length_pos.mpr h.1
    simp only [List.length_drop, List.length_cons]
    omega
  · simp

/-- JS String.prototype.replace with a plain string pattern: replaces the
first occurrence only, as in text.replace("&lt;html&gt;", ...) (run.js:483). -/
def replaceFirst (pat repl : Str) : Str → Str
  | [] => []
  | c :: rest =>
    if pat ≠ [] ∧ pat.isPrefixOf (c :: rest) then
      repl ++ (c :: rest).drop pat.length
    else
      c :: replaceFirst pat repl rest

/-- JS String.prototype.replace with a global regex made of literal
characters: replaces every non-overlapping occurrence, left to right,
as in text.replace(/&gt;&lt;\/script&gt;/g, ...) (run.js:478). -/
def replaceAll (pat repl : Str) : Str → Str
  | [] => []
  | c :: rest =>
    if h : pat ≠ [] ∧ pat.isPrefixOf (c :: rest) then
      repl ++ replaceAll pat repl ((c :: rest).drop pat.length)
    else
      c :: replaceAll pat repl rest
termination_by s => s.length
decreasing_by
  · have hs : 0 < pat.length := List.length_pos.mpr h.1
    simp only [List.length_drop, List.length_cons]
    omega
  · simp

/-- Modelled from the spec: Url.join of the utils library (not under src/),
joining a base path and one further segment with exactly one slash at the
boundary (used at run.js:328, 333, 563, 672). -/
def urlJoin (a b : Str) : Str :=
  if a.getLast? = some '/' then a ++ b else a ++ '/' :: b

/-- Modelled from the spec: Url.extname of the utils library (not under
src/), the dotted extension of the last path segment, in the manner of
path.extname (used at run.js:194). -/
def extname (s : Str) : Str :=
  let base := (s.splitOn '/').getLastD []
  match base.splitOn '.' with
  | [] => []
  | [_] => []
  | p :: rest => if p = [] ∧ rest.length = 1 then [] else '.' :: rest.getLastD []

/-- Modelled from the spec: the external mime-types lookup, which accepts a
filename, a dotted extension or a bare extension and returns a content type
(used at run.js:69, 252, 404, 507). -/
def mimeLookup (name : Str) : Str :=
  let e := if containsSub name ".".toList then extname name else '.' :: name
  if e = ".html".toList ∨ e = ".htm".toList then "text/html".toList
  else if e = ".js".toList then "application/javascript".toList
  else if e = ".css".toList then "text/css".toList
  else if e = ".md".toList then "text/markdown".toList
  else "application/octet-stream".toList

/-- MIMETYPE_HTML constant of run.js:69. -/
def MIMETYPE_HTML : Str := mimeLookup "html".toList

/- ===== Fetch serializer: sendFile, its in-flight flag and its queue
   (run.js:64, 72, 496-549) ===== -/

/-- One request handed to sendFile: the path argument and the request id. -/
structure SFReq where
  path : Str
  rid : Nat
deriving DecidableEq

/-- State shared by the closures of one run() invocation: the isLoading
flag (run.js:64), the pending queue (run.js:72), the fetches currently in
flight, the responses sent so far and the remote reads started so far.
The last three fields are observation history, not source variables. -/
structure SFState where
  isLoading : Bool
  queue : List SFReq
  active : List SFReq
  responses : List (Nat × Nat)
  readsStarted : List Str
deriving DecidableEq

/-- sendFile up to its first suspension point (run.js:496-515): a call made
while isLoading is set pushes a continuation on the queue and returns;
otherwise it sets isLoading and starts the read of the requested path. -/
def sendFile (st : SFState) (r : SFReq) : SFState :=
  if st.isLoading then
    { st with queue := st.queue ++ [r] }
  else
    { st with
      isLoading := true
      active := st.active ++ [r]
      readsStarted := st.readsStarted ++ [r.path] }

/-- Completion of the read started by sendFile (run.js:514-549). On failure
the catch block sends 404, clears isLoading and returns at once
(run.js:517-521), touching no queued continuation. On success the response
is sent, isLoading is cleared, and queue.splice(-1, 1) removes the LAST
queued continuation, which is run immediately (run.js:538-548). -/
def completeFetch (st : SFState) (ok : Bool) : SFState :=
  match st.active with
  | [] => st
  | r :: rest =>
    if ok then
      let st1 : SFState :=
        { st with
          active := rest
          responses := st.responses ++ [(r.rid, 200)]
          isLoading := false }
      match st1.queue.getLast? with
      | none => st1
      | some q => sendFile { st1 with queue := st1.queue.dropLast } q
    else
      { st with
        active := rest
        responses := st.responses ++ [(r.rid, 404)]
        isLoading := false }

/-- An event of the single-threaded event loop: a new request reaching
sendFile, or the completion (success or failure) of the in-flight read. -/
inductive SFEvent where
  | req : SFReq → SFEvent
  | done : Bool → SFEvent
deriving DecidableEq

/-- One step of the event loop. -/
def sfStep (st : SFState) : SFEvent → SFState
  | .req r => sendFile st r
  | .done ok => completeFetch st ok

/-- Run a sequence of events. -/
def sfRun (st : SFState) (evs : List SFEvent) : SFState := evs.foldl sfStep st

/-- The state at the start of a preview session: flag clear, queue empty. -/
def sfInit : SFState := ⟨false, [], [], [], []⟩

/-- Invariant carried by every reachable state: at most one fetch is in
flight, and none when isLoading is clear. -/
def sfInv (st : SFState) : Prop :=
  st.active.length ≤ 1 ∧ (st.isLoading = false → st.active = [])

/- ===== Markdown heading slugs (run.js:376-386) ===== -/

/-- Whitespace recognised by the trim step. -/
def isWS (c : Char) : Bool := c = ' ' ∨ c = '\t' ∨ c = '\n' ∨ c = '\r'

/-- JS String.prototype.trim (run.js:380). -/
def jsTrim (s : Str) : Str := ((s.dropWhile isWS).reverse.dropWhile isWS).reverse

/-- The character class [a-z0-9] of the slugify regex (run.js:382). -/
def isAlnumLower (c : Char) : Bool :=
  ('a' ≤ c && c ≤ 'z') || ('0' ≤ c && c ≤ '9')

/-- Character scan behind collapseRuns: inRun records whether the previous
character belonged to a non-alphanumeric run whose hyphen is already
emitted. -/
def collapseAux (inRun : Bool) : Str → Str
  | [] => []
  | c :: rest =>
    if isAlnumLower c then c :: collapseAux false rest
    else if inRun then collapseAux true rest
    else '-' :: collapseAux true rest

/-- JS s.replace(/[^a-z0-9]+/g, "-"): every maximal run of characters
outside [a-z0-9] becomes one hyphen (run.js:382). -/
def collapseRuns (s : Str) : Str := collapseAux false s

/-- The slugify option passed to the anchor plugin (run.js:378-382):
trim, lowercase, then collapse non-alphanumeric runs to single hyphens. -/
def slugify (s : Str) : Str := collapseRuns ((jsTrim s).map Char.toLower)

/- ===== HTML instrumentation injection: sendHTML (run.js:447-488) ===== -/

/-- The crossorigin normalization applied before injection (run.js:478):
every self-closing script tail gains a crossorigin attribute. -/
def crossOriginNormalize (t : Str) : Str :=
  replaceAll "></script>".toList " crossorigin=\"anonymous\"></script>".toList t

/-- Placement logic of sendHTML (run.js:479-487). The injected block built
at run.js:448-477 (viewport meta, console bootstrap script and inline
session-tagged script) is pure string interpolation and enters here as the
parameter js. The text splits on the literal head tag; with exactly two
parts the block lands inside the existing head; otherwise a lowercase html
tag (the case-insensitive regex test at run.js:482, but a case-sensitive
string replace at run.js:483) gains a synthesized head; otherwise a head
block is prepended. -/
def sendHTML (js t : Str) : Str :=
  let t2 := crossOriginNormalize t
  let part := splitOnSub "<head>".toList t2
  if part.length = 2 then
    part.getD 0 [] ++ "<head>".toList ++ js ++ part.getD 1 []
  else if containsSub (t2.map Char.toLower) "<html>".toList then
    replaceFirst "<html>".toList ("<html><head>".toList ++ js ++ "</head>".toList) t2
  else
    "<head>".toList ++ js ++ "</head>".toList ++ t2

/- ===== Server start and bind retry: startServer/onError (run.js:145-173) ===== -/

/-- Outcome of one CreateServer bind attempt: success, the error string
"Server already running" reported when this component already owns the
port, or any other error. -/
inductive BindOutcome where
  | ok : BindOutcome
  | errSameOwner : BindOutcome
  | errOther : BindOutcome
deriving DecidableEq

/-- Observable result of the start loop: still awaiting the outcome of the
current bind at a port, listening at a port, or browser opened against the
instance that already owns the port. -/
inductive BindResult where
  | pendingBind : Nat → BindResult
  | listening : Nat → BindResult
  | openedExisting : Nat → BindResult
deriving DecidableEq

/-- The start/onError loop (run.js:159-173), consuming the outcome of each
successive bind attempt. Returns how many CreateServer calls were made and
the resulting state. The same-owner error calls openBrowser and stops
(run.js:166-167); any other error increments the port and calls start again
(run.js:169-170). The power-save confirmation inside start (run.js:146-153,
browser target only) is modelled as passing through to startServer, which
matches the inapp target and the non-power-save browser path. -/
def bindLoop (port : Nat) : List BindOutcome → Nat × BindResult
  | [] => (1, .pendingBind port)
  | .ok :: _ => (1, .listening port)
  | .errSameOwner :: _ => (1, .openedExisting port)
  | .errOther :: rest =>
    let r := bindLoop (port + 1) rest
    (r.1 + 1, r.2)

/- ===== sendFileContent (run.js:559-584) ===== -/

/-- The filesystem collaborator as sendFileContent sees it: existence test
and text read (fsOperation(url).exists() / readFile(encoding)). -/
structure FileSys where
  fsExists : Str → Bool
  readContent : Str → Str

/-- What one sendFileContent call sends back. -/
inductive SFCResult where
  | sent404 : SFCResult
  | sentText : Str → Str → SFCResult
  | sentHTML : Str → SFCResult
  | noResponse : SFCResult
deriving DecidableEq

/-- Whether a 200-class response was produced. -/
def SFCResult.isSuccess : SFCResult → Bool
  | .sentText _ _ => true
  | .sentHTML _ => true
  | _ => false

/-- sendFileContent (run.js:559-584). When the url does not exist, the
fallback path pathName joined with filename is probed; if the fallback
exists the code sets fs and the isFallback flag and then hits the return
statement at run.js:574 before reading anything, so nothing is sent; if the
fallback does not exist a 404 is sent. Only an existing url is read and
served. The second component of the result is the isFallback flag. -/
def sendFileContent (fs : FileSys) (pathName filename url mime : Str)
    (processText : Option (Str → Str)) : SFCResult × Bool :=
  if fs.fsExists url = false then
    if fs.fsExists (urlJoin pathName filename) = true then
      (.noResponse, true)
    else
      (.sent404, false)
  else
    let text := fs.readContent url
    let text := match processText with
      | some f => f text
      | none => text
    if mime = MIMETYPE_HTML then (.sentHTML text, false)
    else (.sentText text mime, false)

/- ===== Extension-based dispatch: sendByExt (run.js:227-418) ===== -/

/-- An editor file as sendByExt consults it: EditorFile fields used by the
routing code (mode, SAFMode, uri, loaded, isUnsaved, filename and the
current session text). -/
structure EFile where
  mode : Str
  SAFMode : Str
  uri : Option Str
  loaded : Bool
  isUnsaved : Bool
  filename : Str
  sessionValue : Str
deriving DecidableEq

/-- Result of fsOperation(path).stat() (run.js:340): existence and
file-or-directory flag. -/
structure FStat where
  statExists : Bool
  isFile : Bool
deriving DecidableEq

/-- The response action sendByExt settles on. Downstream senders (sendText,
sendHTML, sendFile, sendFileContent, sendIco) are modelled separately; here
only which one is invoked, and with what data, is recorded. -/
inductive Dispatch where
  | respond404 : Dispatch
  | text : Str → Str → Dispatch
  | html : Str → Dispatch
  | fileStream : Str → Dispatch
  | fileContent : Option Str → Str → Dispatch
  | ico : Dispatch
  | consolePage : Dispatch
  | markdown : Str → Dispatch
  | noResponse : Dispatch
deriving DecidableEq

/-- The url arm of the default extension case (run.js:407-415): favicon
requests get the packaged icon, anything else streams the file; a missing
(or empty, hence falsy) url yields the 404 sender. -/
def extDefaultUrlCase (url : Option Str) (reqPath : Str) : Dispatch :=
  match url with
  | some u =>
    if u = [] then .respond404
    else if reqPath = "favicon.ico".toList then .ico
    else .fileStream u
  | none => .respond404

/-- The switch on the request extension (run.js:363-417). The md case sends
a rendered document only when an open file exists and falls through sending
nothing otherwise (run.js:373-394, no else branch). -/
def extDispatch (ext : Str) (file : Option EFile) (url : Option Str)
    (reqPath : Str) : Dispatch :=
  if ext = ".htm".toList ∨ ext = ".html".toList then
    match file with
    | some f =>
      if f.loaded && f.isUnsaved then .html f.sessionValue
      else .fileContent url MIMETYPE_HTML
    | none => .fileContent url MIMETYPE_HTML
  else if ext = ".md".toList then
    match file with
    | some f => .markdown f.sessionValue
    | none => .noResponse
  else
    match file with
    | some f =>
      if f.loaded && f.isUnsaved then
        if endsWith f.filename ".html".toList then .html f.sessionValue
        else .text f.sessionValue (mimeLookup f.filename)
      else extDefaultUrlCase url reqPath
    | none => extDefaultUrlCase url reqPath

/-- The helpers declared inside sendByExt (run.js:295-300): strip a leading
occurrence of pre from s. Named removePrefix in the source. -/
def removePre (s pre : Str) : Str :=
  if pre.isPrefixOf s then s.drop pre.length else s

/-- The helper findOverlap of sendByExt (run.js:302-320): the longest
suffix of a that is also a prefix of b. -/
def findOverlap (a b : Str) : Str :=
  (List.range (min a.length b.length + 1)).foldl
    (fun acc i =>
      if 1 ≤ i ∧ a.drop (a.length - i) = b.take i then b.take i else acc)
    []

/-- The branch of sendByExt taken when pathName is falsy (run.js:260-262
and 359-361): url stays activeFile.uri; file is activeFile itself when the
uri is falsy, else activeFile only in SAF single mode. -/
def sendByExtNoRoot (ext : Str) (activeFile : EFile) (reqPath : Str) : Dispatch :=
  if (match activeFile.uri with
      | some u2 => u2.isEmpty
      | none => true) then
    extDispatch ext (some activeFile) activeFile.uri reqPath
  else
    extDispatch ext
      (if activeFile.SAFMode = "single".toList then some activeFile else none)
      activeFile.uri reqPath

/-- The path reconciliation of the rooted branch (run.js:265-336): root
folder selection against the opened project folder, ftp and sftp query
stripping, slash trimming, the duplicate leading segment shift, the
overlap removal and the final join producing the full path handed to
stat. -/
def resolveFullPath (pn rp : Str) (projectFolderUrl : Option Str) : Str :=
  let rootFolder :=
    match projectFolderUrl with
    | some pf => if containsSub pn pf then pf else pn
    | none => pn
  let rootFolder :=
    if (isPre "ftp:".toList rootFolder || isPre "sftp:".toList rootFolder)
        && containsSub rootFolder "?".toList then
      rootFolder.takeWhile (fun c => c ≠ '?')
    else rootFolder
  let rootFolder := rtrimSlash rootFolder
  let reqPath2 := ltrimSlash rp
  let rootParts := rootFolder.splitOn '/'
  let pathParts := reqPath2.splitOn '/'
  let pathParts :=
    if pathParts.head? = rootParts.getLast? then pathParts.tail
    else pathParts
  let joined := List.intercalate "/".toList pathParts
  let overlap := findOverlap rootFolder joined
  if overlap ≠ [] then urlJoin rootFolder (removePre joined overlap)
  else urlJoin rootFolder joined

/-- The rooted branch of sendByExt (run.js:264-358): stat the resolved
full path (unguarded, run.js:340), 404 on a missing target, directory
redirect to index.html, query restoration and the open-document lookup
feeding the extension switch. -/
def sendByExtRoot (ext : Str) (pn u : Str) (projectFolderUrl : Option Str)
    (statFn : Str → Except Unit FStat) (getFile : Str → Option EFile)
    (rp : Str) : Except Unit Dispatch :=
  let query := (u.splitOn '?')[1]?
  let fullPath := resolveFullPath pn rp projectFolderUrl
  match statFn fullPath with
  | .error e => .error e
  | .ok stats =>
    if stats.statExists = false then .ok .respond404
    else
      let fullPath :=
        if stats.isFile then fullPath
        else if endsWith fullPath "/".toList then
          fullPath ++ "index.html".toList
        else fullPath ++ "/index.html".toList
      let urlStr :=
        match query with
        | some q => fullPath ++ '?' :: q
        | none => fullPath
      .ok (extDispatch ext (getFile urlStr) (some urlStr) (ltrimSlash rp))

/-- sendByExt (run.js:227-418). Parameters are the closure environment:
the console flag, the active file, the closure variables filename and
pathName, the first opened folder url (addedFolder[0]), the stat
collaborator, the open-document lookup (editorManager.getFile) and the
request path. The stat call at run.js:340 sits in no try block, so a stat
failure leaves the handler as a rejected promise, modelled as Except.error;
so does the member access on a null uri at run.js:266. -/
def sendByExt (isConsole : Bool) (activeFile : EFile) (filename : Str)
    (pathName : Option Str) (projectFolderUrl : Option Str)
    (statFn : Str → Except Unit FStat) (getFile : Str → Option EFile)
    (reqPath : Str) : Except Unit Dispatch :=
  let ext := extname reqPath
  if isConsole && reqPath = "console.html".toList then .ok .consolePage
  else if isConsole && reqPath = "favicon.ico".toList then .ok .ico
  else if activeFile.mode = "single".toList then
    if filename = reqPath then
      .ok (.text activeFile.sessionValue (mimeLookup filename))
    else .ok .respond404
  else
    match pathName with
    | some pn =>
      if pn = [] then .ok (sendByExtNoRoot ext activeFile reqPath)
      else
        match activeFile.uri with
        | none => .error ()
        | some u =>
          sendByExtRoot ext pn u projectFolderUrl statFn getFile reqPath
    | none => .ok (sendByExtNoRoot ext activeFile reqPath)

/- ===== Relative path resolution: getRelativePath (run.js:603-786) ===== -/

/-- Value of one hex digit. -/
def hexVal (c : Char) : Option Nat :=
  if '0' ≤ c ∧ c ≤ '9' then some (c.toNat - 48)
  else if 'A' ≤ c ∧ c ≤ 'F' then some (c.toNat - 55)
  else if 'a' ≤ c ∧ c ≤ 'f' then some (c.toNat - 87)
  else none

/-- Modelled from the spec: decodeURIComponent over percent-encoded
sequences (used at run.js:612, 637, 726). A malformed escape is kept
verbatim rather than thrown, matching the guarded use sites. -/
def percentDecode : Str → Str
  | '%' :: h1 :: h2 :: rest =>
    match hexVal h1, hexVal h2 with
    | some a, some b => Char.ofNat (16 * a + b) :: percentDecode rest
    | _, _ => '%' :: percentDecode (h1 :: h2 :: rest)
  | c :: rest => c :: percentDecode rest
  | [] => []

/-- The regex match uri.match(/tree\/([^:]+)/) (run.js:634): the first
position where tree/ is followed by at least one character other than a
colon, returning that maximal colon-free capture. -/
def treeMatch : Str → Option Str
  | [] => none
  | c :: rest =>
    if "tree/".toList.isPrefixOf (c :: rest) then
      let seg := ((c :: rest).drop 5).takeWhile (fun d => d ≠ ':')
      if seg = [] then treeMatch rest else some seg
    else treeMatch rest

/-- The encoded Termux root constant (run.js:604-605). -/
def termuxRootEncoded : Str :=
  "content://com.termux.documents/tree/%2Fdata%2Fdata%2Fcom.termux%2Ffiles%2Fhome".toList

/-- The decoded Termux root constant (run.js:606), declared by the source
next to the encoded one. -/
def termuxRootDecoded : Str := "/data/data/com.termux/files/home".toList

/-- makeUriAbsoluteIfNeeded (run.js:603-617). -/
def makeUriAbsoluteIfNeeded (uri : Str) : Str :=
  if isPre termuxRootEncoded uri then
    if containsSub uri "::".toList then uri
    else
      let decodedPath := percentDecode (((splitOnSub "tree/".toList uri)[1]?).getD [])
      termuxRootEncoded ++ "::".toList ++ decodedPath ++ "/".toList
  else uri

/-- The loop of run.js:763-770: the number of leading positions at which
the two part lists agree. -/
def commonPrefixLen : List Str → List Str → Nat
  | a :: as, b :: bs => if a = b then commonPrefixLen as bs + 1 else 0
  | _, _ => 0

/-- The final tier of getRelativePath (run.js:756-785): strip the longest
common leading segment sequence; failing that fall back to the bare
filename, then to the combined path itself. -/
def grpGeneric (rootFolder temp filename : Str) : Str :=
  let rootParts := rootFolder.splitOn '/'
  let tempParts := temp.splitOn '/'
  let commonIndex := commonPrefixLen rootParts tempParts
  if commonIndex > 0 then List.intercalate "/".toList (tempParts.drop commonIndex)
  else if filename ≠ [] then filename
  else temp

/-- The generic content uri tier of getRelativePath (run.js:704-754). -/
def grpContent (rootFolder temp filename : Str) : Str :=
  if containsSub temp "content://".toList && containsSub temp "::".toList then
    match (splitOnSub "::".toList temp)[1]? with
    | some afterDoubleColon =>
      if afterDoubleColon ≠ [] then
        let rootFolderPath :=
          if containsSub rootFolder "::".toList then
            ((splitOnSub "::".toList rootFolder)[1]?).getD []
          else rootFolder
        let rootFolderPath :=
          if containsSub rootFolderPath "::".toList = false then
            let lastPart := (rootFolder.splitOn '/').getLastD []
            if containsSub lastPart "%3A".toList then percentDecode lastPart
            else lastPart
          else rootFolderPath
        let normalizedRoot := rtrimSlash rootFolderPath
        if isPre normalizedRoot afterDoubleColon then
          let relativePath := ltrimSlash (afterDoubleColon.drop normalizedRoot.length)
          if relativePath ≠ [] then relativePath
          else grpGeneric rootFolder temp filename
        else grpGeneric rootFolder temp filename
      else grpGeneric rootFolder temp filename
    | none => grpGeneric rootFolder temp filename
  else grpGeneric rootFolder temp filename

/-- The Termux document tier of getRelativePath (run.js:674-702). -/
def grpTermux (rootFolder temp filename : Str) : Str :=
  if containsSub temp "com.termux.documents".toList
      && containsSub temp "::".toList then
    let realPath := ((splitOnSub "::".toList temp)[1]?).getD []
    let normalizedRoot := rtrimSlash rootFolder
    if isPre normalizedRoot realPath then
      let relativePath := ltrimSlash (realPath.drop normalizedRoot.length)
      if relativePath ≠ [] then relativePath
      else grpContent rootFolder temp filename
    else grpContent rootFolder temp filename
  else grpContent rootFolder temp filename

/-- getRelativePath (run.js:619-786). Parameters are the closure
environment: the first opened folder url (addedFolder[0]), the active file
uri, and the closure variables pathName and filename. The root comes from
the Termux tree segment of the uri, else from the project folder when
pathName lies under it, else from pathName itself; ftp and sftp query
strings are stripped (the filePath condition mixing filePath and
rootFolder at run.js:665 is kept as written); then the tiers above run on
the combined path. -/
def getRelativePath (projectFolderUrl activeFileUri : Option Str)
    (pathName filename : Str) : Str :=
  let termuxCond :=
    match activeFileUri with
    | some uri =>
      containsSub uri "com.termux.documents".toList
        && containsSub uri "tree/".toList
    | none => false
  let rootFolder :=
    if termuxCond then
      match activeFileUri with
      | some uri =>
        match treeMatch uri with
        | some seg => percentDecode seg
        | none => pathName
      | none => pathName
    else
      match projectFolderUrl with
      | some pf =>
        if (!pathName.isEmpty) && containsSub pathName pf then pf else pathName
      | none => pathName
  let rootFolder := makeUriAbsoluteIfNeeded rootFolder
  let filePath := pathName
  let rootFolder :=
    if (isPre "ftp:".toList rootFolder || isPre "sftp:".toList rootFolder)
        && containsSub rootFolder "?".toList then
      rootFolder.takeWhile (fun c => c ≠ '?')
    else rootFolder
  let filePath :=
    if (isPre "ftp:".toList filePath || isPre "sftp:".toList rootFolder)
        && containsSub filePath "?".toList then
      filePath.takeWhile (fun c => c ≠ '?')
    else filePath
  let temp := urlJoin filePath filename
  grpTermux rootFolder temp filename

/- ===== Helper lemmas ===== -/

theorem sendFile_inv (st : SFState) (r : SFReq) (h : sfInv st) :
    sfInv (sendFile st r) := by
  obtain ⟨il, qu, ac, resp, reads⟩ := st
  obtain ⟨h1, h2⟩ := h
  cases il with
  | false =>
    have hac : ac = [] := h2 rfl
    subst hac
    simp [sendFile, sfInv]
  | true =>
    simpa [sendFile, sfInv] using h1

theorem completeFetch_inv (st : SFState) (ok : Bool) (h : sfInv st) :
    sfInv (completeFetch st ok) := by
  obtain ⟨il, qu, ac, resp, reads⟩ := st
  obtain ⟨h1, h2⟩ := h
  cases ac with
  | nil => simp [completeFetch, sfInv]
  | cons r rest =>
    have hrest : rest = [] := by
      simp only [List.length_cons] at h1
      exact List.eq_nil_of_length_eq_zero (by omega)
    subst hrest
    cases ok with
    | false => simp [completeFetch, sfInv]
    | true =>
      cases hq : qu.getLast? with
      | none => simp [completeFetch, hq, sfInv]
      | some q => simp [completeFetch, hq, sfInv, sendFile]

theorem sfStep_inv (st : SFState) (ev : SFEvent) (h : sfInv st) :
    sfInv (sfStep st ev) := by
  cases ev with
  | req r => exact sendFile_inv st r h
  | done ok => exact completeFetch_inv st ok h

theorem sfRun_inv (evs : List SFEvent) (st : SFState) (h : sfInv st) :
    sfInv (sfRun st evs) := by
  induction evs generalizing st with
  | nil => exact h
  | cons e es ih => exact ih (sfStep st e) (sfStep_inv st e h)

/- ===== C1 ===== -/

/-- C1: at most one remote fetch is in flight per preview session. A
sendFile call arriving while isLoading is set only appends the request to
the pending queue and changes nothing else (in particular it starts no
read), and along every event sequence from the initial session state at
most one fetch is ever in flight. -/
theorem c1_sendFile_serializes :
    (∀ (st : SFState) (r : SFReq), st.isLoading = true →
      sendFile st r = { st with queue := st.queue ++ [r] }) ∧
    (∀ evs : List SFEvent, (sfRun sfInit evs).active.length ≤ 1) := by
  constructor
  · intro st r h
    simp [sendFile, h]
  · intro evs
    exact (sfRun_inv evs sfInit (by simp [sfInv, sfInit])).1

/-- Witness for C1 at a concrete loading state. -/
theorem c1_sendFile_serializes_witness :
    sendFile ⟨true, [], [], [], []⟩ ⟨"b".toList, 2⟩
      = ⟨true, [⟨"b".toList, 2⟩], [], [], []⟩ := by
  have h := c1_sendFile_serializes.1 ⟨true, [], [], [], []⟩ ⟨"b".toList, 2⟩ rfl
  exact h

/- ===== C2 ===== -/

/-- C2 counterexample: requests 2 and 3 are queued, in that order, behind
the in-flight request 1; when request 1 completes, the continuation that
runs next is request 3 (its read is started, request 2 is still queued),
so the dequeue order is not FIFO. -/
theorem c2_fifo_counterexample :
    (sfRun sfInit [.req ⟨"a".toList, 1⟩, .req ⟨"b".toList, 2⟩,
        .req ⟨"c".toList, 3⟩, .done true]).readsStarted
      = ["a".toList, "c".toList] ∧
    (sfRun sfInit [.req ⟨"a".toList, 1⟩, .req ⟨"b".toList, 2⟩,
        .req ⟨"c".toList, 3⟩, .done true]).queue
      = [⟨"b".toList, 2⟩] := by
  constructor <;> rfl

/-- C2 amended: after each successfully completed fetch, exactly one
queued continuation (if any) is dequeued and run next, but it is the most
recently appended one (queue.splice(-1, 1) is LIFO); after a failed fetch
no continuation is dequeued at all. -/
theorem c2_success_dequeues_lifo :
    (∀ (st : SFState) (r c : SFReq) (q : List SFReq),
      st.active = [r] → st.queue = q ++ [c] →
      completeFetch st true =
        ⟨true, q, [c], st.responses ++ [(r.rid, 200)],
          st.readsStarted ++ [c.path]⟩) ∧
    (∀ (st : SFState) (r : SFReq),
      st.active = [r] → st.queue = [] →
      completeFetch st true =
        ⟨false, [], [], st.responses ++ [(r.rid, 200)], st.readsStarted⟩) ∧
    (∀ (st : SFState) (r : SFReq),
      st.active = [r] →
      completeFetch st false =
        ⟨false, st.queue, [], st.responses ++ [(r.rid, 404)],
          st.readsStarted⟩) := by
  refine ⟨?_, ?_, ?_⟩
  · intro st r c q h1 h2
    obtain ⟨il, qu, ac, resp, reads⟩ := st
    simp only at h1 h2
    subst h1 h2
    simp [completeFetch, List.getLast?_concat, List.dropLast_concat, sendFile]
  · intro st r h1 h2
    obtain ⟨il, qu, ac, resp, reads⟩ := st
    simp only at h1 h2
    subst h1 h2
    simp [completeFetch]
  · intro st r h1
    obtain ⟨il, qu, ac, resp, reads⟩ := st
    simp only at h1
    subst h1
    simp [completeFetch]

/-- Witness for C2 amended at a concrete state with two queued requests. -/
theorem c2_success_dequeues_lifo_witness :
    completeFetch ⟨true, [⟨"b".toList, 2⟩, ⟨"c".toList, 3⟩], [⟨"a".toList, 1⟩], [], ["a".toList]⟩ true
      = ⟨true, [⟨"b".toList, 2⟩], [⟨"c".toList, 3⟩], [(1, 200)],
          ["a".toList, "c".toList]⟩ := by
  have h := c2_success_dequeues_lifo.1
    ⟨true, [⟨"b".toList, 2⟩, ⟨"c".toList, 3⟩], [⟨"a".toList, 1⟩], [], ["a".toList]⟩
    ⟨"a".toList, 1⟩ ⟨"c".toList, 3⟩ [⟨"b".toList, 2⟩] rfl rfl
  exact h

/- ===== C3 ===== -/

/-- C3 counterexample: request 1 for a remote uri is in flight, request 2
is queued behind it; when the remote read of request 1 fails, request 1
gets a 404 but request 2 stays in the queue and its own read is never
started, contradicting that a queued request still attempts its own
independent read after the failure. -/
theorem c3_failure_counterexample :
    sfRun sfInit [.req ⟨"sftp://host/a.txt".toList, 1⟩,
        .req ⟨"sftp://host/b.txt".toList, 2⟩, .done false]
      = ⟨false, [⟨"sftp://host/b.txt".toList, 2⟩], [], [(1, 404)],
          ["sftp://host/a.txt".toList]⟩ ∧
    "sftp://host/b.txt".toList ∉
        (sfRun sfInit [.req ⟨"sftp://host/a.txt".toList, 1⟩,
          .req ⟨"sftp://host/b.txt".toList, 2⟩, .done false]).readsStarted := by
  constructor
  · rfl
  · decide

/-- C3 amended: on a remote read failure a 404 is sent for the failing
request and the in-flight flag is cleared, but the catch block returns
before the queue is touched: no queued continuation is dequeued or run at
that point, so requests queued behind the failure stay pending until some
later successful completion or idle sendFile call. -/
theorem c3_failure_drops_queue_processing (st : SFState) (r : SFReq)
    (h : st.active = [r]) :
    (completeFetch st false).responses = st.responses ++ [(r.rid, 404)] ∧
    (completeFetch st false).queue = st.queue ∧
    (completeFetch st false).readsStarted = st.readsStarted ∧
    (completeFetch st false).isLoading = false ∧
    (completeFetch st false).active = [] := by
  obtain ⟨il, qu, ac, resp, reads⟩ := st
  simp only at h
  subst h
  simp [completeFetch]

/-- Witness for C3 amended at a concrete failing state. -/
theorem c3_failure_drops_queue_processing_witness :
    (completeFetch ⟨true, [⟨"q".toList, 2⟩], [⟨"p".toList, 1⟩], [], ["p".toList]⟩ false).responses
        = [(1, 404)] ∧
    (completeFetch ⟨true, [⟨"q".toList, 2⟩], [⟨"p".toList, 1⟩], [], ["p".toList]⟩ false).queue
        = [⟨"q".toList, 2⟩] := by
  have h := c3_failure_drops_queue_processing
    ⟨true, [⟨"q".toList, 2⟩], [⟨"p".toList, 1⟩], [], ["p".toList]⟩ ⟨"p".toList, 1⟩ rfl
  exact ⟨h.1, h.2.1⟩

/- ===== C9 ===== -/

/-- C9: a bind failure reported as owned by this same component is treated
as success, the browser is opened against the existing instance and no
further server is created; any other bind failure increments the port by
one and retries, and for every number n of consecutive other failures the
loop is still retrying at port plus n with n plus one bind attempts made,
so there is no retry cap. -/
theorem c9_bind_retry_policy :
    (∀ (p : Nat) (rest : List BindOutcome),
      bindLoop p (.errSameOwner :: rest) = (1, .openedExisting p)) ∧
    (∀ p n : Nat,
      bindLoop p (List.replicate n .errOther) = (n + 1, .pendingBind (p + n))) := by
  constructor
  · intro p rest
    rfl
  · intro p n
    induction n generalizing p with
    | zero => simp [bindLoop]
    | succ k ih =>
      rw [List.replicate_succ]
      simp only [bindLoop]
      rw [ih (p + 1)]
      have hpk : p + 1 + k = p + (k + 1) := by omega
      simp [hpk]

/- ===== C10 ===== -/

/-- C10: when the url given to sendFileContent does not exist, no success
response is ever produced: if the fallback pathName joined with filename
does not exist either, a 404 is sent; if the fallback does exist, the
function returns without sending anything at all, despite having located
the fallback (the isFallback flag is set). -/
theorem c10_sendFileContent_no_success (fs : FileSys)
    (pathName filename url mime : Str) (pt : Option (Str → Str))
    (h : fs.fsExists url = false) :
    (fs.fsExists (urlJoin pathName filename) = false →
      sendFileContent fs pathName filename url mime pt = (.sent404, false)) ∧
    (fs.fsExists (urlJoin pathName filename) = true →
      sendFileContent fs pathName filename url mime pt = (.noResponse, true)) ∧
    (sendFileContent fs pathName filename url mime pt).1.isSuccess = false := by
  refine ⟨?_, ?_, ?_⟩
  · intro hfb
    simp [sendFileContent, h, hfb]
  · intro hfb
    simp [sendFileContent, h, hfb]
  · cases hfb : fs.fsExists (urlJoin pathName filename) with
    | false => simp [sendFileContent, h, hfb, SFCResult.isSuccess]
    | true => simp [sendFileContent, h, hfb, SFCResult.isSuccess]

/-- Witness for C10 on a filesystem where nothing exists. -/
theorem c10_sendFileContent_no_success_witness :
    sendFileContent ⟨fun _ => false, fun _ => []⟩ "/p".toList "f".toList
        "/p/u".toList "text/css".toList none = (.sent404, false) := by
  have h := c10_sendFileContent_no_success ⟨fun _ => false, fun _ => []⟩
    "/p".toList "f".toList "/p/u".toList "text/css".toList none rfl
  exact h.1 rfl

/- ===== C7 helper lemmas ===== -/

theorem collapseAux_mem (s : Str) :
    ∀ (b : Bool), ∀ c ∈ collapseAux b s, isAlnumLower c = true ∨ c = '-' := by
  induction s with
  | nil =>
    intro b c hc
    simp [collapseAux] at hc
  | cons a rest ih =>
    intro b c hc
    by_cases ha : isAlnumLower a = true
    · simp only [collapseAux, if_pos ha] at hc
      rcases List.mem_cons.mp hc with h | h
      · subst h
        exact Or.inl ha
      · exact ih false c h
    · rw [Bool.not_eq_true] at ha
      simp only [collapseAux, ha, Bool.false_eq_true, if_false] at hc
      cases b with
      | true =>
        simp only [if_true] at hc
        exact ih true c hc
      | false =>
        simp only [Bool.false_eq_true, if_false] at hc
        rcases List.mem_cons.mp hc with h | h
        · exact Or.inr h
        · exact ih true c h

theorem collapseAux_true_head (s : Str) :
    ∀ y, (collapseAux true s).head? = some y → isAlnumLower y = true := by
  induction s with
  | nil =>
    intro y hy
    simp [collapseAux] at hy
  | cons a rest ih =>
    intro y hy
    by_cases ha : isAlnumLower a = true
    · simp only [collapseAux, if_pos ha, List.head?_cons, Option.some.injEq] at hy
      rw [← hy]
      exact ha
    · rw [Bool.not_eq_true] at ha
      simp only [collapseAux, ha, Bool.false_eq_true, if_false, if_true] at hy
      exact ih y hy

theorem collapseAux_chain (s : Str) :
    ∀ b, List.Chain' (fun a c => a = '-' → isAlnumLower c = true) (collapseAux b s) := by
  induction s with
  | nil =>
    intro b
    simp [collapseAux]
  | cons a rest ih =>
    intro b
    by_cases ha : isAlnumLower a = true
    · simp only [collapseAux, if_pos ha]
      rw [List.chain'_cons']
      refine ⟨?_, ih false⟩
      intro x _ hda
      rw [hda] at ha
      exact absurd ha (by decide)
    · rw [Bool.not_eq_true] at ha
      simp only [collapseAux, ha, Bool.false_eq_true, if_false]
      cases b with
      | true =>
        simp only [if_true]
        exact ih true
      | false =>
        simp only [Bool.false_eq_true, if_false]
        rw [List.chain'_cons']
        refine ⟨?_, ih true⟩
        intro x hx _
        exact collapseAux_true_head rest x hx

/- ===== C7 ===== -/

/-- C7 counterexample: the heading text Hello World! slugifies to
hello-world- (the trailing run made of the exclamation mark also collapses
to a hyphen), not to hello-world. -/
theorem c7_slug_counterexample :
    slugify "Hello World!".toList = "hello-world-".toList ∧
    "hello-world-".toList ≠ "hello-world".toList := by
  constructor
  · rfl
  · decide

/-- C7 amended: the anchor slug is the trimmed heading text lowercased
with each run of non-alphanumeric characters, including leading and
trailing runs, collapsed to a single hyphen: every output character is a
lowercase alphanumeric or a hyphen, no two hyphens are adjacent, and the
heading Hello World! produces hello-world- with its trailing hyphen. -/
theorem c7_slug_amended :
    (∀ (s : Str), ∀ c ∈ slugify s, isAlnumLower c = true ∨ c = '-') ∧
    (∀ s : Str,
      List.Chain' (fun a b => a = '-' → isAlnumLower b = true) (slugify s)) ∧
    slugify "Hello World!".toList = "hello-world-".toList := by
  refine ⟨?_, ?_, ?_⟩
  · intro s
    exact collapseAux_mem _ false
  · intro s
    exact collapseAux_chain _ false
  · rfl

/-- Witness for C7 amended at a concrete heading. -/
theorem c7_slug_amended_witness :
    isAlnumLower 'h' = true ∨ 'h' = '-' :=
  c7_slug_amended.1 "Hi".toList 'h' (by decide)

/- ===== C8 helper lemmas ===== -/

theorem containsSub_eq_true (s pat : Str) :
    containsSub s pat = true ↔ pat <:+: s := by
  simp [containsSub]

theorem infix_of_replaceFirst (pat repl js t : Str) (hne : pat ≠ [])
    (ht : pat <:+: t) (hjs : js <:+: repl) :
    js <:+: replaceFirst pat repl t := by
  induction t with
  | nil =>
    rw [List.infix_nil] at ht
    exact absurd ht hne
  | cons c rest ih =>
    rw [replaceFirst]
    by_cases hp : pat.isPrefixOf (c :: rest) = true
    · rw [if_pos ⟨hne, hp⟩]
      exact hjs.trans (List.prefix_append repl _).isInfix
    · rw [if_neg (fun hh => hp hh.2)]
      have hrest : pat <:+: rest := by
        rcases List.infix_cons_iff.mp ht with h1 | h2
        · exact absurd (List.isPrefixOf_iff_prefix.mpr h1) hp
        · exact h2
      exact (ih hrest).trans (List.suffix_cons c _).isInfix

/- ===== C8 ===== -/

/-- C8 counterexample: a document whose html tag is uppercase and which
has no head tag passes the case-insensitive html test, but the
case-sensitive string replace finds nothing, so the output is returned
unchanged and does not contain the injected block at all. -/
theorem c8_injection_counterexample :
    sendHTML "X".toList "<HTML></HTML>".toList = "<HTML></HTML>".toList ∧
    ¬ ("X".toList <:+: "<HTML></HTML>".toList) := by
  constructor
  · simp [sendHTML, crossOriginNormalize, replaceAll, replaceFirst, splitOnSub,
      containsSub]
    decide
  · decide

/-- C8 amended: the injected block lands inside the existing head when the
normalized text splits on the head tag into exactly two parts, after a
lowercase html tag when one occurs, and inside a prepended head block when
no case variant of the html tag occurs; in each of those cases the output
contains the block. When only a non-lowercase html tag occurs and the
head split does not have exactly two parts, the text is left unchanged
and the block is absent, as the counterexample shows. -/
theorem c8_injection_amended (js t : Str)
    (h : (splitOnSub "<head>".toList (crossOriginNormalize t)).length = 2 ∨
         "<html>".toList <:+: crossOriginNormalize t ∨
         ¬ ("<html>".toList <:+: (crossOriginNormalize t).map Char.toLower)) :
    js <:+: sendHTML js t := by
  simp only [sendHTML]
  by_cases h2 : (splitOnSub "<head>".toList (crossOriginNormalize t)).length = 2
  · rw [if_pos h2]
    obtain ⟨a, b, hab⟩ := List.length_eq_two.mp h2
    rw [hab]
    simp only [List.getD_cons_zero, List.getD_cons_succ]
    have hx := List.infix_append (a ++ "<head>".toList) js b
    simpa [List.append_assoc] using hx
  · rw [if_neg h2]
    by_cases h3 :
        containsSub ((crossOriginNormalize t).map Char.toLower) "<html>".toList = true
    · rw [if_pos h3]
      have hocc : "<html>".toList <:+: crossOriginNormalize t := by
        rcases h with h | h | h
        · exact absurd h h2
        · exact h
        · exact absurd ((containsSub_eq_true _ _).mp h3) h
      refine infix_of_replaceFirst _ _ _ _ (by decide) hocc ?_
      have hx := List.infix_append ("<html><head>".toList) js ("</head>".toList)
      simpa [List.append_assoc] using hx
    · rw [if_neg h3]
      have hx := List.infix_append ("<head>".toList) js
        ("</head>".toList ++ crossOriginNormalize t)
      simpa [List.append_assoc] using hx

/-- Witness for C8 amended on a document with one head tag. -/
theorem c8_injection_amended_witness :
    "X".toList <:+: sendHTML "X".toList "<head></head>".toList :=
  c8_injection_amended "X".toList "<head></head>".toList
    (Or.inl (by simp [splitOnSub, crossOriginNormalize, replaceAll]))

/- ===== C4 ===== -/

/-- C4 counterexample: with a root folder set, the stat call at run.js:340
sits in no try block, so a filesystem that fails the stat makes the whole
handler reject (a thrown fault escapes) instead of being converted to a
404 response or a silent fallback. -/
theorem c4_stat_fault_escapes_counterexample :
    sendByExt false
      ⟨"norm".toList, "n".toList, some "/proj/index.html".toList, true, false,
        "index.html".toList, "T".toList⟩
      "index.html".toList (some "/proj".toList) none
      (fun _ => .error ()) (fun _ => none) "index.html".toList = .error () ∧
    (Except.error () : Except Unit Dispatch) ≠ .ok .respond404 := by
  constructor
  · rfl
  · intro h
    exact Except.noConfusion h

/-- C4 amended: a request whose resolved full path fails the existence
check gets a 404 response and no thrown fault; but the blanket claim that
every filesystem failure inside request handling is caught is false: the
stat call itself is unguarded, and a failing stat escapes the handler as a
rejected promise. -/
theorem c4_notfound_404_and_stat_faults_escape :
    (∀ (af : EFile) (fname pn : Str) (pf : Option Str)
        (statFn : Str → Except Unit FStat) (gf : Str → Option EFile)
        (rp u : Str),
      af.mode ≠ "single".toList → af.uri = some u → pn ≠ [] →
      (∀ q, statFn q = .ok ⟨false, false⟩) →
      sendByExt false af fname (some pn) pf statFn gf rp = .ok .respond404) ∧
    (∀ (af : EFile) (fname pn : Str) (pf : Option Str)
        (gf : Str → Option EFile) (rp u : Str),
      af.mode ≠ "single".toList → af.uri = some u → pn ≠ [] →
      sendByExt false af fname (some pn) pf (fun _ => .error ())
        gf rp = .error ()) := by
  constructor
  · intro af fname pn pf statFn gf rp u hmode huri hpn hstat
    have hm : af.mode ≠ ['s', 'i', 'n', 'g', 'l', 'e'] := hmode
    simp [sendByExt, sendByExtRoot, hm, huri, hpn, hstat]
  · intro af fname pn pf gf rp u hmode huri hpn
    have hm : af.mode ≠ ['s', 'i', 'n', 'g', 'l', 'e'] := hmode
    simp [sendByExt, sendByExtRoot, hm, huri, hpn]

/-- Witness for C4 amended on a concrete missing file. -/
theorem c4_notfound_404_witness :
    sendByExt false
      ⟨"norm".toList, "n".toList, some "/proj/a.txt".toList, true, false,
        "a.txt".toList, "T".toList⟩
      "a.txt".toList (some "/proj".toList) none
      (fun _ => .ok ⟨false, false⟩) (fun _ => none) "a.txt".toList
      = .ok .respond404 :=
  c4_notfound_404_and_stat_faults_escape.1
    ⟨"norm".toList, "n".toList, some "/proj/a.txt".toList, true, false,
      "a.txt".toList, "T".toList⟩
    "a.txt".toList "/proj".toList none (fun _ => .ok ⟨false, false⟩)
    (fun _ => none) "a.txt".toList "/proj/a.txt".toList
    (by decide) rfl (by decide) (fun q => rfl)

/- ===== C5 helper lemma ===== -/

theorem extDispatch_md (f : Option EFile) (url : Option Str) (rp : Str) :
    extDispatch ['.', 'm', 'd'] f url rp =
      (match f with
       | some ff => Dispatch.markdown ff.sessionValue
       | none => Dispatch.noResponse) := by
  cases f <;> simp [extDispatch]

/- ===== C5 ===== -/

/-- C5 counterexample: a request for report.md whose file exists on disk
but has no corresponding open document receives no response at all (the
md case of the switch has no else branch, run.js:373-394), not the 404 the
claim requires. -/
theorem c5_md_no_doc_counterexample :
    sendByExt false
      ⟨"norm".toList, "n".toList, some "/proj/report.md".toList, true, false,
        "report.md".toList, "T".toList⟩
      "report.md".toList (some "/proj".toList) none
      (fun _ => .ok ⟨true, true⟩) (fun _ => none) "report.md".toList
      = .ok .noResponse ∧
    (Except.ok Dispatch.noResponse : Except Unit Dispatch) ≠ .ok .respond404 := by
  constructor
  · rfl
  · intro h
    exact Dispatch.noConfusion (Except.ok.inj h)

/-- C5 amended: for an md request with a root folder, a 404 is sent only
when the resolved file does not exist; when the file exists but no open
document matches, the md case falls through and no response at all is
sent; and the md route never dispatches to a disk read (neither
sendFileContent nor sendFile), so markdown is rendered only from an open
buffer. -/
theorem c5_md_amended :
    (∀ (af : EFile) (fname pn : Str) (pf : Option Str)
        (statFn : Str → Except Unit FStat) (gf : Str → Option EFile)
        (rp u : Str),
      af.mode ≠ "single".toList → af.uri = some u → pn ≠ [] →
      (∀ q, statFn q = .ok ⟨true, true⟩) → (∀ q, gf q = none) →
      extname rp = ".md".toList →
      sendByExt false af fname (some pn) pf statFn gf rp = .ok .noResponse) ∧
    (∀ (af : EFile) (fname pn : Str) (pf : Option Str)
        (statFn : Str → Except Unit FStat) (gf : Str → Option EFile)
        (rp u : Str),
      af.mode ≠ "single".toList → af.uri = some u → pn ≠ [] →
      (∀ q, statFn q = .ok ⟨false, false⟩) →
      sendByExt false af fname (some pn) pf statFn gf rp = .ok .respond404) ∧
    (∀ (isConsole : Bool) (af : EFile) (fname : Str) (pathName : Option Str)
        (pf : Option Str) (statFn : Str → Except Unit FStat)
        (gf : Str → Option EFile) (rp : Str),
      extname rp = ".md".toList →
      (∀ u' m', sendByExt isConsole af fname pathName pf statFn gf rp
          ≠ .ok (.fileContent u' m')) ∧
      (∀ u', sendByExt isConsole af fname pathName pf statFn gf rp
          ≠ .ok (.fileStream u'))) := by
  refine ⟨?_, ?_, ?_⟩
  · intro af fname pn pf statFn gf rp u hmode huri hpn hstat hgf hext
    have hm : af.mode ≠ ['s', 'i', 'n', 'g', 'l', 'e'] := hmode
    have hext2 : extname rp = ['.', 'm', 'd'] := hext
    simp [sendByExt, sendByExtRoot, hm, huri, hpn, hstat, hgf, hext2,
      extDispatch_md]
  · intro af fname pn pf statFn gf rp u hmode huri hpn hstat
    have hm : af.mode ≠ ['s', 'i', 'n', 'g', 'l', 'e'] := hmode
    simp [sendByExt, sendByExtRoot, hm, huri, hpn, hstat]
  · intro isConsole af fname pathName pf statFn gf rp hext
    have hext2 : extname rp = ['.', 'm', 'd'] := hext
    have hroot : ∀ (pn u : Str) (res : Dispatch),
        sendByExtRoot ['.', 'm', 'd'] pn u pf statFn gf rp = .ok res →
        (∀ u2 m2, res ≠ .fileContent u2 m2) ∧ ∀ u2, res ≠ .fileStream u2 := by
      intro pn u res h
      simp only [sendByExtRoot, extDispatch_md] at h
      repeat' split at h
      all_goals
        first
        | exact Except.noConfusion h
        | (injection h with h2; cases h2; simp)
    constructor
    · intro u' m' h
      simp only [sendByExt, sendByExtNoRoot, hext2, extDispatch_md] at h
      repeat' split at h
      all_goals
        first
        | exact (hroot _ _ _ h).1 u' m' rfl
        | simp_all
    · intro u' h
      simp only [sendByExt, sendByExtNoRoot, hext2, extDispatch_md] at h
      repeat' split at h
      all_goals
        first
        | exact (hroot _ _ _ h).2 u' rfl
        | simp_all

/-- Witness for C5 amended on a concrete on-disk markdown file with no
open document. -/
theorem c5_md_amended_witness :
    sendByExt false
      ⟨"norm".toList, "n".toList, some "/proj/b.md".toList, true, false,
        "b.md".toList, "T".toList⟩
      "b.md".toList (some "/proj".toList) none
      (fun _ => .ok ⟨true, true⟩) (fun _ => none) "b.md".toList
      = .ok .noResponse :=
  c5_md_amended.1
    ⟨"norm".toList, "n".toList, some "/proj/b.md".toList, true, false,
      "b.md".toList, "T".toList⟩
    "b.md".toList "/proj".toList none (fun _ => .ok ⟨true, true⟩)
    (fun _ => none) "b.md".toList "/proj/b.md".toList
    (by decide) rfl (by decide) (fun q => rfl) (fun q => rfl) (by decide)

/- ===== C6 helper lemmas ===== -/

theorem modifyHead_append_left (f : Str → Str) (l1 l2 : List Str)
    (h : l1 ≠ []) : (l1 ++ l2).modifyHead f = l1.modifyHead f ++ l2 := by
  cases l1 with
  | nil => exact absurd rfl h
  | cons x xs => simp

theorem splitOnP_sep_append (p : Char → Bool) (sep : Char)
    (hsep : p sep = true) (xs ys : Str) :
    (xs ++ sep :: ys).splitOnP p = xs.splitOnP p ++ ys.splitOnP p := by
  induction xs with
  | nil => simp [List.splitOnP_cons, hsep]
  | cons a as ih =>
    by_cases hpa : p a = true
    · simp only [List.cons_append, List.splitOnP_cons, hpa, if_true, ih,
        List.splitOnP_nil]
    · have hpa2 : p a = false := by simpa using hpa
      simp only [List.cons_append, List.splitOnP_cons, hpa2, Bool.false_eq_true,
        if_false, ih]
      exact modifyHead_append_left _ _ _ (List.splitOnP_ne_nil _ _)

theorem splitOn_slash_append (xs ys : Str) :
    (xs ++ '/' :: ys).splitOn '/' = xs.splitOn '/' ++ ys.splitOn '/' := by
  simp only [List.splitOn]
  exact splitOnP_sep_append _ '/' (by simp) xs ys

theorem commonPrefixLen_append_self (as bs : List Str) :
    commonPrefixLen as (as ++ bs) = as.length := by
  induction as with
  | nil => rfl
  | cons a as ih => simp [commonPrefixLen, ih]

theorem splitOn_slash_ne_nil (xs : Str) : xs.splitOn '/' ≠ [] := by
  simp only [List.splitOn]
  exact List.splitOnP_ne_nil _ _

theorem isPre_cons_ne {a b : Char} (h : a ≠ b) (as bs : Str) :
    isPre (a :: as) (b :: bs) = false := by
  simp only [isPre, decide_eq_false_iff_not, List.cons_prefix_cons]
  intro hc
  exact h hc.1

/- ===== C6 ===== -/

/-- C6 counterexample: with root /a and document path /a/b/a/c (a strict
descendant of the normalized root), the resolved relative path is b/a/c,
which contains an occurrence of the root /a, so the claim that the result
has no occurrence of the prefix of the root fails. -/
theorem c6_root_occurrence_counterexample :
    getRelativePath (some "/a".toList) none "/a/b/a".toList "c".toList
      = "b/a/c".toList ∧
    "/a".toList <:+: "b/a/c".toList ∧
    urlJoin "/a/b/a".toList "c".toList = "/a".toList ++ '/' :: "b/a/c".toList := by
  refine ⟨rfl, by decide, by decide⟩

/-- C6 amended: for a plain root path R starting with a slash and a
document path that is a strict descendant of R (combined path equal to R,
a slash, and a nonempty remainder not starting with a slash), with no
double-colon marker in the combined path and no query character in the
parent directory, the resolution returns exactly the remainder: a path
with no leading slash and of which R is not a prefix. An occurrence of R
strictly inside the result remains possible, as the counterexample shows. -/
theorem c6_relative_path_amended (R1 rest pathName filename : Str)
    (htemp : urlJoin pathName filename = ('/' :: R1) ++ '/' :: rest)
    (hrest : rest ≠ []) (hrh : rest.head? ≠ some '/')
    (hnc : containsSub (urlJoin pathName filename) "::".toList = false)
    (hq : containsSub pathName "?".toList = false)
    (hin : containsSub pathName ('/' :: R1) = true) :
    getRelativePath (some ('/' :: R1)) none pathName filename = rest ∧
    (getRelativePath (some ('/' :: R1)) none pathName filename).head?
      ≠ some '/' ∧
    ¬ ('/' :: R1 <+: getRelativePath (some ('/' :: R1)) none pathName filename) := by
  have hpne : pathName.isEmpty = false := by
    rcases pathName with _ | ⟨c, cs⟩
    · simp [containsSub, List.infix_nil] at hin
    · rfl
  have htm : isPre termuxRootEncoded ('/' :: R1) = false := by
    rw [show termuxRootEncoded
        = 'c' :: "ontent://com.termux.documents/tree/%2Fdata%2Fdata%2Fcom.termux%2Ffiles%2Fhome".toList
      from rfl]
    exact isPre_cons_ne (by decide) _ _
  have hftp : isPre "ftp:".toList ('/' :: R1) = false := by
    rw [show ("ftp:".toList : Str) = 'f' :: "tp:".toList from rfl]
    exact isPre_cons_ne (by decide) _ _
  have hsftp : isPre "sftp:".toList ('/' :: R1) = false := by
    rw [show ("sftp:".toList : Str) = 's' :: "ftp:".toList from rfl]
    exact isPre_cons_ne (by decide) _ _
  have hnc2 : containsSub (('/' :: R1) ++ '/' :: rest) "::".toList = false := by
    rw [← htemp]
    exact hnc
  have hmain : getRelativePath (some ('/' :: R1)) none pathName filename = rest := by
    simp only [getRelativePath, makeUriAbsoluteIfNeeded, htm, hpne, hin, htemp,
      hftp, hsftp, hq, Bool.not_false, Bool.true_and, Bool.and_false,
      Bool.false_and, Bool.or_self, Bool.false_or, Bool.and_self, if_true,
      Bool.false_eq_true, if_false]
    simp only [grpTermux, grpContent, hnc2, Bool.and_false, Bool.false_eq_true,
      if_false]
    simp only [grpGeneric, splitOn_slash_append, commonPrefixLen_append_self]
    have hpos : ((('/' :: R1).splitOn '/').length) > 0 :=
      List.length_pos.mpr (splitOn_slash_ne_nil _)
    rw [if_pos hpos]
    rw [List.drop_left]
    rw [show ("/".toList : Str) = ['/'] from rfl]
    exact List.intercalate_splitOn rest '/'
  refine ⟨hmain, ?_, ?_⟩
  · rw [hmain]
    exact hrh
  · rw [hmain]
    intro hp
    rcases hp with ⟨t, ht⟩
    apply hrh
    rw [← ht]
    rfl

/-- Witness for C6 amended at a concrete root and descendant. -/
theorem c6_relative_path_amended_witness :
    getRelativePath (some "/a".toList) none "/a/b".toList "x".toList
      = "b/x".toList :=
  (c6_relative_path_amended "a".toList "b/x".toList "/a/b".toList "x".toList
    (by decide) (by decide) (by decide) (by decide) (by decide) (by decide)).1
